import Mathlib

/-
Verification of the worker-supervisor core of `vm_manager.py`.

The Python module is embedded shallowly:
* the error-pattern matching (`re.search(pattern, line, re.IGNORECASE)`)
  is modelled by a small matcher over a token list covering exactly the
  regular-expression features the pattern lists use: literal characters
  (ASCII case-insensitive, as `re.IGNORECASE` gives on these patterns),
  `\d+` and `.*`;
* the mutable `VMManager` object becomes an explicit state record
  (`MState`) threaded through pure functions; the worker dictionary is an
  insertion-ordered association list, matching Python `dict` semantics;
* the operating system (script existence, process spawning, process
  liveness, the clock) is an explicit environment record `Env`;
* side-effecting calls whose order the specification constrains
  (stop, sibling kill, delay, start) are recorded in an event trace.

Timestamps are natural numbers; process handles are numbers drawn from a
spawn counter.
-/

namespace VM

/-! ## Error-pattern matching (ERROR_PATTERNS / FATAL_PATTERNS, lines 80-92) -/

/-- One token of the restricted regular-expression language used by the
pattern lists of `vm_manager.py`: a literal character, `\d+`, or `.*`. -/
inductive RTok where
  | lit (c : Char)
  | digits
  | anystar
deriving DecidableEq, Repr

/-- ASCII-case-insensitive code of a character: upper-case ASCII letters
are folded to their lower-case code, every other character is its own
code.  This models `re.IGNORECASE` on the pattern lists in the source. -/
def lcode (c : Char) : Nat :=
  if 65 ≤ c.toNat ∧ c.toNat ≤ 90 then c.toNat + 32 else c.toNat

/-- Decimal-digit test on the character code. -/
def isDig (c : Char) : Bool := decide (48 ≤ c.toNat ∧ c.toNat ≤ 57)

/-- Match a token list against a list of characters, anchored at the
start; trailing input characters are allowed (as with `re.search`).
Defined with an explicit fuel so that it is structurally recursive;
every recursive call strictly decreases `ts.length + xs.length`, so
fuel `ts.length + xs.length + 1` always suffices (`matchToksF_fuel`
below shows the result does not depend on the fuel once adequate). -/
def matchToksF : Nat → List RTok → List Char → Bool
  | 0, _, _ => false
  | _ + 1, [], _ => true
  | _ + 1, .lit _ :: _, [] => false
  | f + 1, .lit c :: ts, x :: xs => (lcode x == lcode c) && matchToksF f ts xs
  | _ + 1, .digits :: _, [] => false
  | f + 1, .digits :: ts, x :: xs =>
      isDig x && (matchToksF f ts xs || matchToksF f (.digits :: ts) xs)
  | f + 1, .anystar :: ts, [] => matchToksF f ts []
  | f + 1, .anystar :: ts, x :: xs =>
      matchToksF f ts (x :: xs) || matchToksF f (.anystar :: ts) xs

/-- Match with adequate fuel. -/
def matchToks (ts : List RTok) (xs : List Char) : Bool :=
  matchToksF (ts.length + xs.length + 1) ts xs

/-- `re.search`: try to match at every start position. -/
def searchToks (ts : List RTok) : List Char → Bool
  | [] => matchToks ts []
  | x :: xs => matchToks ts (x :: xs) || searchToks ts xs

/-- Search a pattern in a line. -/
def reSearch (p : List RTok) (line : String) : Bool :=
  searchToks p line.toList

/-- A string as a list of literal tokens. -/
def litToks (s : String) : List RTok := s.toList.map RTok.lit

/-- `ERROR_PATTERNS` of `vm_manager.py` (lines 80-87). -/
def ERROR_PATTERNS : List (List RTok) :=
  [ litToks "Chrome attempt " ++ [.digits, .lit '/', .digits] ++ litToks " failed",
    litToks "✗ Chrome error",
    litToks "✗ Không restart được Chrome",
    litToks "The browser connection fails",
    litToks "reCAPTCHA evaluation failed",
    litToks "403" ++ [.anystar] ++ litToks "error" ]

/-- `FATAL_PATTERNS` of `vm_manager.py` (lines 89-92). -/
def FATAL_PATTERNS : List (List RTok) :=
  [ litToks "Chrome attempt 3/3 failed",
    litToks "✗ Không restart được Chrome" ]

/-- A line matches some fatal pattern. -/
def matchesFatal (line : String) : Bool :=
  FATAL_PATTERNS.any fun p => reSearch p line

/-- A line matches some recoverable (`ERROR_PATTERNS`) pattern. -/
def matchesError (line : String) : Bool :=
  ERROR_PATTERNS.any fun p => reSearch p line

/-! ## Timing constants (lines 95-97) -/

def RESTART_DELAY : Nat := 5
def SCAN_INTERVAL : Nat := 30
def MAX_ERRORS : Nat := 3

/-! ## `_check_errors` (lines 407-435)

The method mutates only `worker.error_count` and spawns restart threads;
it is modelled as a function from the current error count and the line to
the new error count together with the list of restart requests issued
(worker id paired with the `kill_chrome` flag, which the spawned
`restart_worker` call leaves at its default `True`). -/

def check_errors (worker_id : String) (error_count : Nat) (line : String) :
    Nat × List (String × Bool) :=
  if matchesFatal line then
    (error_count, [(worker_id, true)])
  else if matchesError line then
    let ec := error_count + 1
    if MAX_ERRORS ≤ ec then (ec, [(worker_id, true)]) else (ec, [])
  else
    (error_count, [])

/-- Feed a sequence of output lines through `_check_errors`, accumulating
the restart requests; no start happens in between, so the error counter
is threaded from line to line. -/
def feedLines (worker_id : String) (error_count : Nat) (lines : List String) :
    Nat × List (String × Bool) :=
  lines.foldl
    (fun acc l =>
      let r := check_errors worker_id acc.1 l
      (r.1, acc.2 ++ r.2))
    (error_count, [])

/-! ## Data structures (lines 56-132) -/

/-- `TaskType` (lines 57-60).  The specification calls these stages
DOCUMENT, RENDER_IMAGE and RENDER_VIDEO respectively. -/
inductive TaskType where
  | EXCEL
  | IMAGE
  | VIDEO
deriving DecidableEq, Repr

/-- `TaskStatus` (lines 63-67). -/
inductive TaskStatus where
  | PENDING
  | RUNNING
  | COMPLETED
  | FAILED
deriving DecidableEq, Repr

/-- `WorkerStatus` (lines 70-76).  The specification's RUNNING state is
the source's IDLE/WORKING pair; `start_worker` sets IDLE. -/
inductive WorkerStatus where
  | STOPPED
  | STARTING
  | IDLE
  | WORKING
  | ERROR
  | RESTARTING
deriving DecidableEq, Repr

/-- `Task` dataclass (lines 104-115); timestamps are naturals. -/
structure Task where
  project_code : String
  task_type : TaskType
  status : TaskStatus := .PENDING
  worker_id : Option String := none
  created_at : Nat := 0
  started_at : Option Nat := none
  completed_at : Option Nat := none
  error : String := ""
  retry_count : Nat := 0
deriving DecidableEq, Repr

/-- `WorkerInfo` dataclass (lines 118-131); the `subprocess.Popen`
handle is an abstract process identifier. -/
structure WorkerInfo where
  worker_id : String
  worker_type : String
  worker_num : Nat := 0
  process : Option Nat := none
  status : WorkerStatus := .STOPPED
  current_task : Option Task := none
  start_time : Option Nat := none
  error_count : Nat := 0
  restart_count : Nat := 0
  completed_tasks : Nat := 0
  last_output : String := ""
deriving DecidableEq, Repr

/-! ## The worker registry as an insertion-ordered association list -/

/-- Python-`dict` lookup. -/
def lookupW : List (String × WorkerInfo) → String → Option WorkerInfo
  | [], _ => none
  | (k2, v) :: rest, k => if k2 == k then some v else lookupW rest k

/-- Python-`dict` assignment: replace in place when the key is present,
append otherwise (insertion order is preserved). -/
def setW : List (String × WorkerInfo) → String → WorkerInfo → List (String × WorkerInfo)
  | [], k, v => [(k, v)]
  | (k2, v2) :: rest, k, v =>
      if k2 == k then (k, v) :: rest else (k2, v2) :: setW rest k v

/-- Python-`dict` deletion (of a present key). -/
def eraseW : List (String × WorkerInfo) → String → List (String × WorkerInfo)
  | [], _ => []
  | (k2, v2) :: rest, k =>
      if k2 == k then rest else (k2, v2) :: eraseW rest k

/-- The registry's key list, in insertion order. -/
def keysW (l : List (String × WorkerInfo)) : List String := l.map Prod.fst

/-! ## Manager state and operating-system environment -/

/-- The mutable state of a `VMManager` that the verified operations
touch: the worker registry, the Chrome worker count, the stop flag and
the spawn counter issuing fresh process identifiers. -/
structure MState where
  workers : List (String × WorkerInfo)
  num_chrome_workers : Nat
  stop_flag : Bool := false
  nextPid : Nat := 0
deriving DecidableEq, Repr

/-- The operating system as seen by the manager: which script files
exist, whether `subprocess.Popen` succeeds, which process handles are
still alive (`poll() is None`), and the current time. -/
structure Env where
  scriptExists : String → Bool
  spawnOk : Bool
  alive : Nat → Bool
  now : Nat

/-- Externally observable calls whose order the specification
constrains. -/
inductive Event where
  | stopEv (worker_id : String)
  | killAllEv
  | sleepEv (seconds : Nat)
  | startEv (worker_id : String)
  | markStoppedEv (worker_id : String)
deriving DecidableEq, Repr

/-- Number of `startEv` entries in a trace (restart attempts launched). -/
def countStarts (evs : List Event) : Nat :=
  (evs.filter fun e => match e with | .startEv _ => true | _ => false).length

/-! ## Worker control (lines 257-375) -/

/-- `_get_worker_script` (lines 257-263), relative to `TOOL_DIR`. -/
def get_worker_script (w : WorkerInfo) : String :=
  if w.worker_type == "excel" then "run_excel_api.py"
  else "_run_chrome" ++ toString w.worker_num ++ ".py"

/-- `worker.process and worker.process.poll() is None` (line 274). -/
def isLive (env : Env) (w : WorkerInfo) : Bool :=
  match w.process with
  | some pid => env.alive pid
  | none => false

/-- `start_worker` (lines 265-330), Linux branch.  Returns the new state
and the boolean result.  The transient STARTING status is immediately
overwritten on every path and is not retained. -/
def start_worker (env : Env) (st : MState) (worker_id : String) : MState × Bool :=
  match lookupW st.workers worker_id with
  | none => (st, false)
  | some w =>
    if isLive env w then (st, true)
    else if !env.scriptExists (get_worker_script w) then
      ({ st with workers := setW st.workers worker_id { w with status := .ERROR } }, false)
    else if env.spawnOk then
      ({ st with
          workers := setW st.workers worker_id
            { w with process := some st.nextPid, status := .IDLE,
                     start_time := some env.now, error_count := 0 },
          nextPid := st.nextPid + 1 }, true)
    else
      ({ st with workers := setW st.workers worker_id { w with status := .ERROR } }, false)

/-- `stop_worker` (lines 332-353).  Termination errors are swallowed in
the source, so the model needs no environment. -/
def stop_worker (st : MState) (worker_id : String) : MState × Bool :=
  match lookupW st.workers worker_id with
  | none => (st, false)
  | some w =>
    let w2 := { w with process := none, status := .STOPPED, current_task := none }
    ({ st with workers := setW st.workers worker_id w2 }, true)

/-- `restart_worker` (lines 355-375).  The trace records the calls the
method makes, in order: `stop_worker`, `kill_all_chrome` when requested
on a Chrome worker, `time.sleep(RESTART_DELAY)`, `start_worker`. -/
def restart_worker (env : Env) (st : MState) (worker_id : String)
    (kill_chrome : Bool := true) : MState × Bool × List Event :=
  match lookupW st.workers worker_id with
  | none => (st, false, [])
  | some w =>
    let w1 := { w with status := .RESTARTING, restart_count := w.restart_count + 1 }
    let st1 := { st with workers := setW st.workers worker_id w1 }
    let st2 := (stop_worker st1 worker_id).1
    let killEvs := if kill_chrome && (w.worker_type == "chrome") then [Event.killAllEv] else []
    let r := start_worker env st2 worker_id
    (r.1, r.2,
      [Event.stopEv worker_id] ++ killEvs ++ [Event.sleepEv RESTART_DELAY]
        ++ [Event.startEv worker_id])

/-! ## `_monitor_worker`, EOF branch (lines 377-405) -/

/-- `worker.process.poll() is not None` for a monitored worker. -/
def processExited (env : Env) (w : WorkerInfo) : Bool :=
  match w.process with
  | some pid => !env.alive pid
  | none => true

/-- The monitor's reaction when `readline` returns EOF (lines 384-393):
if the process has exited, mark the slot STOPPED and — unless the stop
flag is set — sleep `RESTART_DELAY` and restart the worker (sibling kill
at its default `True`); otherwise keep looping (no action). -/
def monitor_on_eof (env : Env) (st : MState) (worker_id : String) : MState × List Event :=
  match lookupW st.workers worker_id with
  | none => (st, [])
  | some w =>
    if processExited env w then
      let st1 := { st with workers := setW st.workers worker_id { w with status := .STOPPED } }
      if !st.stop_flag then
        let r := restart_worker env st1 worker_id
        (r.1, [Event.markStoppedEv worker_id, Event.sleepEv RESTART_DELAY] ++ r.2.2)
      else
        (st1, [Event.markStoppedEv worker_id])
    else (st, [])

/-! ## Scaling (lines 441-464) -/

/-- Decimal digits, least significant first, with explicit fuel so the
definition is structurally recursive; fuel `n` always suffices for input
`n` because a positive number strictly shrinks under division by 10. -/
def digitsRevF : Nat → Nat → List Nat
  | 0, _ => []
  | _ + 1, 0 => []
  | f + 1, n + 1 => ((n + 1) % 10) :: digitsRevF f ((n + 1) / 10)

/-- Decimal digits of a natural number, least significant first. -/
def digitsRev (n : Nat) : List Nat := digitsRevF n n

/-- Character of one decimal digit. -/
def digChar (d : Nat) : Char := Char.ofNat (48 + d)

/-- Decimal rendering of a natural number, as Python `str(int)`. -/
def natStr (n : Nat) : String :=
  if n = 0 then "0" else String.mk ((digitsRev n).reverse.map digChar)

/-- The id `f"chrome_{i}"` of the Chrome worker with ordinal `i`. -/
def chromeId (i : Nat) : String := "chrome_" ++ natStr i

/-- A freshly constructed Chrome `WorkerInfo` (lines 449-453). -/
def mkChromeInfo (i : Nat) : WorkerInfo :=
  { worker_id := chromeId i, worker_type := "chrome", worker_num := i }

/-- One scale-up step (lines 447-454): register a fresh slot and start
it, recording the start call. -/
def addChromeWorker (env : Env) (p : MState × List Event) (i : Nat) : MState × List Event :=
  let st1 := { p.1 with workers := setW p.1.workers (chromeId i) (mkChromeInfo i) }
  ((start_worker env st1 (chromeId i)).1, p.2 ++ [Event.startEv (chromeId i)])

/-- One scale-down step (lines 458-461): stop the slot and delete it
from the registry, recording the stop call. -/
def removeChromeWorker (p : MState × List Event) (i : Nat) : MState × List Event :=
  let st1 := (stop_worker p.1 (chromeId i)).1
  ({ st1 with workers := eraseW st1.workers (chromeId i) }, p.2 ++ [Event.stopEv (chromeId i)])

/-- `scale_chrome_workers` (lines 441-464). -/
def scale_chrome_workers (env : Env) (st : MState) (num_workers : Nat) : MState × List Event :=
  let current := st.num_chrome_workers
  let p :=
    if current < num_workers then
      (List.range' (current + 1) (num_workers - current)).foldl (addChromeWorker env) (st, [])
    else if num_workers < current then
      (List.range' (num_workers + 1) (current - num_workers)).foldl removeChromeWorker (st, [])
    else (st, [])
  ({ p.1 with num_chrome_workers := num_workers }, p.2)

/-! ## `stop_all` (lines 488-496) -/

/-- `stop_all`: set the stop flag, then stop every worker (the final
`kill_all_chrome` touches no manager state). -/
def stop_all (st : MState) : MState :=
  (keysW st.workers).foldl (fun s wid => (stop_worker s wid).1) { st with stop_flag := true }

/-! ## Task-queue completion, modelled from the specification

Modelled from the spec: the repository source declares the `Task` record
(`vm_manager.py` lines 104-115, with `retry_count` and per-stage types)
but contains no `complete` operation; the TaskQueue/Scheduler
`complete(task, success)` of spec §4.4 is therefore modelled from the
specification's words. -/

/-- Modelled from the spec: the stage after a given stage, in the fixed
pipeline order DOCUMENT (`excel`) → RENDER_IMAGE (`image`) →
RENDER_VIDEO (`video`). -/
def nextStage : TaskType → Option TaskType
  | .EXCEL => some .IMAGE
  | .IMAGE => some .VIDEO
  | .VIDEO => none

/-- Outcome of `complete`: the status the task is marked with, the
task's final state, and the automatically enqueued follow-up task. -/
structure CompleteResult where
  marked : TaskStatus
  final : Task
  enqueued : Option Task
deriving DecidableEq, Repr

/-- Modelled from the spec (§4.4): `complete(task, success)` — on
success, mark COMPLETED and enqueue the next stage for the same project
when one remains; on failure, mark FAILED, increment `retryCount` and
re-enqueue the task as PENDING. -/
def complete (t : Task) (success : Bool) : CompleteResult :=
  if success then
    { marked := .COMPLETED,
      final := { t with status := .COMPLETED },
      enqueued := (nextStage t.task_type).map fun s =>
        { project_code := t.project_code, task_type := s } }
  else
    { marked := .FAILED,
      final := { t with status := .PENDING, retry_count := t.retry_count + 1 },
      enqueued := none }

/-! ## Registry lemmas -/

theorem lookupW_setW_self (l : List (String × WorkerInfo)) (k : String) (v : WorkerInfo) :
    lookupW (setW l k v) k = some v := by
  induction l with
  | nil => simp [setW, lookupW]
  | cons p rest ih =>
    by_cases h : p.1 = k
    · simp [setW, lookupW, h]
    · simp only [setW, lookupW]
      rw [if_neg (by simpa using h)]
      simp only [lookupW]
      rw [if_neg (by simpa using h)]
      exact ih

theorem lookupW_setW_ne (l : List (String × WorkerInfo)) (k k2 : String) (v : WorkerInfo)
    (h : k2 ≠ k) : lookupW (setW l k v) k2 = lookupW l k2 := by
  induction l with
  | nil => simp [setW, lookupW, Ne.symm h]
  | cons p rest ih =>
    by_cases hp : p.1 = k
    · subst hp
      simp [setW, lookupW, Ne.symm h]
    · simp [setW, lookupW, hp, ih]

theorem lookupW_eq_none_iff (l : List (String × WorkerInfo)) (k : String) :
    lookupW l k = none ↔ k ∉ keysW l := by
  induction l with
  | nil => simp [lookupW, keysW]
  | cons p rest ih =>
    by_cases hp : p.1 = k
    · simp [lookupW, keysW, hp]
    · simp [lookupW, keysW, hp, ih, Ne.symm hp]

theorem setW_eq_append (l : List (String × WorkerInfo)) (k : String) (v : WorkerInfo)
    (h : lookupW l k = none) : setW l k v = l ++ [(k, v)] := by
  induction l with
  | nil => simp [setW]
  | cons p rest ih =>
    simp only [lookupW] at h
    by_cases hp : p.1 = k
    · rw [if_pos (by simpa using hp)] at h
      exact absurd h (by simp)
    · rw [if_neg (by simpa using hp)] at h
      simp only [setW]
      rw [if_neg (by simpa using hp)]
      simp [ih h]

theorem keysW_setW_of_mem (l : List (String × WorkerInfo)) (k : String) (v : WorkerInfo)
    (h : lookupW l k ≠ none) : keysW (setW l k v) = keysW l := by
  induction l with
  | nil => simp [lookupW] at h
  | cons p rest ih =>
    simp only [lookupW] at h
    by_cases hp : p.1 = k
    · simp [setW, keysW, hp]
    · rw [if_neg (by simpa using hp)] at h
      simp only [setW, keysW]
      rw [if_neg (by simpa using hp)]
      simpa [keysW] using ih h

theorem lookupW_eraseW_ne (l : List (String × WorkerInfo)) (k k2 : String)
    (h : k2 ≠ k) : lookupW (eraseW l k) k2 = lookupW l k2 := by
  induction l with
  | nil => simp [eraseW]
  | cons p rest ih =>
    by_cases hp : p.1 = k
    · subst hp
      simp [eraseW, lookupW, Ne.symm h]
    · simp [eraseW, lookupW, hp, ih]

theorem keysW_eraseW_sublist (l : List (String × WorkerInfo)) (k : String) :
    (keysW (eraseW l k)).Sublist (keysW l) := by
  induction l with
  | nil => simp [eraseW, keysW]
  | cons p rest ih =>
    by_cases hp : p.1 = k
    · simp only [eraseW, keysW]
      rw [if_pos (by simpa using hp)]
      exact List.sublist_cons_self _ _
    · simp only [eraseW, keysW]
      rw [if_neg (by simpa using hp)]
      simpa [keysW] using ih.cons₂ p.1

theorem lookupW_eraseW_self (l : List (String × WorkerInfo)) (k : String)
    (h : (keysW l).Nodup) : lookupW (eraseW l k) k = none := by
  induction l with
  | nil => simp [eraseW, lookupW]
  | cons p rest ih =>
    simp only [keysW, List.map_cons, List.nodup_cons] at h
    by_cases hp : p.1 = k
    · simp only [eraseW]
      rw [if_pos (by simpa using hp)]
      rw [lookupW_eq_none_iff]
      exact hp ▸ h.1
    · simp only [eraseW, lookupW]
      rw [if_neg (by simpa using hp)]
      simp [lookupW, hp, ih h.2]

/-! ## Operation characterizations -/

/-- Full case analysis of `start_worker` on a registered worker. -/
theorem start_worker_cases (env : Env) (st : MState) (wid : String) (w : WorkerInfo)
    (h : lookupW st.workers wid = some w) :
    (isLive env w = true → start_worker env st wid = (st, true))
    ∧ (isLive env w = false → env.scriptExists (get_worker_script w) = false →
        start_worker env st wid =
          ({ st with workers := setW st.workers wid { w with status := .ERROR } }, false))
    ∧ (isLive env w = false → env.scriptExists (get_worker_script w) = true →
        env.spawnOk = true →
        start_worker env st wid =
          ({ st with
              workers := setW st.workers wid
                { w with process := some st.nextPid, status := .IDLE,
                         start_time := some env.now, error_count := 0 },
              nextPid := st.nextPid + 1 }, true))
    ∧ (isLive env w = false → env.scriptExists (get_worker_script w) = true →
        env.spawnOk = false →
        start_worker env st wid =
          ({ st with workers := setW st.workers wid { w with status := .ERROR } }, false)) := by
  refine ⟨fun hl => ?_, fun hl hs => ?_, fun hl hs hk => ?_, fun hl hs hk => ?_⟩
  · simp [start_worker, h, hl]
  · simp [start_worker, h, hl, hs]
  · simp [start_worker, h, hl, hs, hk]
  · simp [start_worker, h, hl, hs, hk]

/-- `start_worker` touches no registry entry other than `wid`. -/
theorem start_worker_lookup_ne (env : Env) (st : MState) (wid k : String) (hk : k ≠ wid) :
    lookupW (start_worker env st wid).1.workers k = lookupW st.workers k := by
  unfold start_worker
  cases hw : lookupW st.workers wid with
  | none => rfl
  | some w =>
    by_cases hl : isLive env w <;>
      by_cases hs : env.scriptExists (get_worker_script w) <;>
        by_cases hsp : env.spawnOk <;>
          simp [hl, hs, hsp, lookupW_setW_ne _ _ _ _ hk]

/-- `start_worker` does not change the key list. -/
theorem start_worker_keysW (env : Env) (st : MState) (wid : String) :
    keysW (start_worker env st wid).1.workers = keysW st.workers := by
  unfold start_worker
  cases hw : lookupW st.workers wid with
  | none => rfl
  | some w =>
    have hne : lookupW st.workers wid ≠ none := by simp [hw]
    by_cases hl : isLive env w <;>
      by_cases hs : env.scriptExists (get_worker_script w) <;>
        by_cases hsp : env.spawnOk <;>
          simp [hl, hs, hsp, keysW_setW_of_mem _ _ _ hne]

/-- `start_worker` preserves the scalar fields of the manager state. -/
theorem start_worker_scalars (env : Env) (st : MState) (wid : String) :
    (start_worker env st wid).1.num_chrome_workers = st.num_chrome_workers
    ∧ (start_worker env st wid).1.stop_flag = st.stop_flag := by
  unfold start_worker
  cases hw : lookupW st.workers wid with
  | none => exact ⟨rfl, rfl⟩
  | some w =>
    by_cases hl : isLive env w <;>
      by_cases hs : env.scriptExists (get_worker_script w) <;>
        by_cases hsp : env.spawnOk <;>
          simp [hl, hs, hsp]

/-- The entry `start_worker` leaves for the worker keeps its
`restart_count`, `worker_type` and `worker_num`. -/
theorem start_worker_entry (env : Env) (st : MState) (wid : String) (w : WorkerInfo)
    (h : lookupW st.workers wid = some w) :
    ∃ w2, lookupW (start_worker env st wid).1.workers wid = some w2
      ∧ w2.restart_count = w.restart_count
      ∧ w2.worker_type = w.worker_type
      ∧ w2.worker_num = w.worker_num
      ∧ (w.error_count = 0 → w2.error_count = 0) := by
  obtain ⟨c1, c2, c3, c4⟩ := start_worker_cases env st wid w h
  by_cases hl : isLive env w
  · exact ⟨w, by rw [c1 hl]; exact h, rfl, rfl, rfl, fun h0 => h0⟩
  · by_cases hs : env.scriptExists (get_worker_script w)
    · by_cases hsp : env.spawnOk
      · rw [c3 (by simpa using hl) hs hsp]
        exact ⟨_, lookupW_setW_self _ _ _, rfl, rfl, rfl, fun _ => rfl⟩
      · rw [c4 (by simpa using hl) hs (by simpa using hsp)]
        exact ⟨_, lookupW_setW_self _ _ _, rfl, rfl, rfl, fun h0 => h0⟩
    · rw [c2 (by simpa using hl) (by simpa using hs)]
      exact ⟨_, lookupW_setW_self _ _ _, rfl, rfl, rfl, fun h0 => h0⟩

/-- Characterization of `stop_worker` on a registered worker. -/
theorem stop_worker_eq (st : MState) (wid : String) (w : WorkerInfo)
    (h : lookupW st.workers wid = some w) :
    stop_worker st wid =
      ({ st with workers := setW st.workers wid { w with process := none, status := .STOPPED, current_task := none } }, true) := by
  simp [stop_worker, h]

/-- `stop_worker` touches no registry entry other than `wid`. -/
theorem stop_worker_lookup_ne (st : MState) (wid k : String) (hk : k ≠ wid) :
    lookupW (stop_worker st wid).1.workers k = lookupW st.workers k := by
  unfold stop_worker
  cases hw : lookupW st.workers wid with
  | none => rfl
  | some w => simp [lookupW_setW_ne _ _ _ _ hk]

/-- `stop_worker` does not change the key list. -/
theorem stop_worker_keysW (st : MState) (wid : String) :
    keysW (stop_worker st wid).1.workers = keysW st.workers := by
  unfold stop_worker
  cases hw : lookupW st.workers wid with
  | none => rfl
  | some w =>
    have hne : lookupW st.workers wid ≠ none := by simp [hw]
    simp [keysW_setW_of_mem _ _ _ hne]

/-- `stop_worker` preserves the scalar fields of the manager state. -/
theorem stop_worker_scalars (st : MState) (wid : String) :
    (stop_worker st wid).1.num_chrome_workers = st.num_chrome_workers
    ∧ (stop_worker st wid).1.stop_flag = st.stop_flag
    ∧ (stop_worker st wid).1.nextPid = st.nextPid := by
  unfold stop_worker
  cases hw : lookupW st.workers wid with
  | none => exact ⟨rfl, rfl, rfl⟩
  | some w => exact ⟨rfl, rfl, rfl⟩

/-- Reduction of `restart_worker` on a registered worker: the restart
increments the counter, stops, conditionally kills the siblings, sleeps
and starts, producing the recorded trace. -/
theorem restart_worker_eq (env : Env) (st : MState) (wid : String) (w : WorkerInfo)
    (ks : Bool) (h : lookupW st.workers wid = some w) :
    restart_worker env st wid ks =
      ((start_worker env
          (stop_worker { st with workers := setW st.workers wid { w with status := .RESTARTING, restart_count := w.restart_count + 1 } } wid).1
          wid).1,
       (start_worker env
          (stop_worker { st with workers := setW st.workers wid { w with status := .RESTARTING, restart_count := w.restart_count + 1 } } wid).1
          wid).2,
       [Event.stopEv wid]
         ++ (if ks && (w.worker_type == "chrome") then [Event.killAllEv] else [])
         ++ [Event.sleepEv RESTART_DELAY] ++ [Event.startEv wid]) := by
  simp [restart_worker, h]

/-- After `restart_worker` on a registered worker, the worker's entry
shows exactly one more restart. -/
theorem restart_worker_count (env : Env) (st : MState) (wid : String) (w : WorkerInfo)
    (ks : Bool) (h : lookupW st.workers wid = some w) :
    ∃ w2, lookupW (restart_worker env st wid ks).1.workers wid = some w2
      ∧ w2.restart_count = w.restart_count + 1 := by
  set w1 : WorkerInfo :=
    { w with status := .RESTARTING, restart_count := w.restart_count + 1 } with hw1
  set st1 : MState := { st with workers := setW st.workers wid w1 } with hst1
  have h1 : lookupW st1.workers wid = some w1 := lookupW_setW_self _ _ _
  have h2 : lookupW (stop_worker st1 wid).1.workers wid =
      some { w1 with process := none, status := .STOPPED, current_task := none } := by
    rw [stop_worker_eq st1 wid w1 h1]
    exact lookupW_setW_self _ _ _
  obtain ⟨w3, hw3, hrc, _, _, _⟩ := start_worker_entry env _ wid _ h2
  refine ⟨w3, ?_, by rw [hrc]⟩
  rw [restart_worker_eq env st wid w ks h]
  exact hw3

/-- The trace of a `restart_worker` call on a registered worker holds
exactly one start event. -/
theorem restart_worker_countStarts (env : Env) (st : MState) (wid : String) (w : WorkerInfo)
    (ks : Bool) (h : lookupW st.workers wid = some w) :
    countStarts (restart_worker env st wid ks).2.2 = 1 := by
  rw [restart_worker_eq env st wid w ks h]
  by_cases hc : ks && (w.worker_type == "chrome") <;> simp [hc, countStarts]

/-- `countStarts` distributes over append. -/
theorem countStarts_append (l1 l2 : List Event) :
    countStarts (l1 ++ l2) = countStarts l1 + countStarts l2 := by
  simp [countStarts, List.filter_append]

/-! ## Helper facts about `stop_all` -/

theorem foldl_stop_flag (l : List String) (s : MState) :
    (l.foldl (fun s wid => (stop_worker s wid).1) s).stop_flag = s.stop_flag := by
  induction l generalizing s with
  | nil => rfl
  | cons a l ih => rw [List.foldl_cons, ih, (stop_worker_scalars s a).2.1]

theorem stop_all_flag (st : MState) : (stop_all st).stop_flag = true := by
  unfold stop_all
  rw [foldl_stop_flag]

/-! ## Concrete sample environments and states used by witnesses -/

/-- An operating system where every script exists, spawning succeeds,
and no process is alive. -/
def envTest : Env :=
  { scriptExists := fun _ => true, spawnOk := true, alive := fun _ => false, now := 42 }

/-- An operating system where every script exists but spawning fails
(`subprocess.Popen` raises). -/
def envNoSpawn : Env :=
  { scriptExists := fun _ => true, spawnOk := false, alive := fun _ => false, now := 42 }

/-- A manager state fresh out of `_init_workers` with two Chrome
workers and the Excel worker. -/
def stTest : MState :=
  { workers := [("excel", { worker_id := "excel", worker_type := "excel" }),
                ("chrome_1", mkChromeInfo 1),
                ("chrome_2", mkChromeInfo 2)],
    num_chrome_workers := 2 }

/-! ## Claim C1 -/

/-- C1: for every worker slot and every output line matching some FATAL
pattern, `_check_errors` issues exactly one restart request for that
slot (with sibling cleanup, the default `kill_chrome=True`), for every
current value of the error counter, and leaves the counter unchanged —
the recoverable-error logic is not applied to the line. -/
theorem c1_fatal_line_single_restart (worker_id : String) (error_count : Nat) (line : String)
    (h : matchesFatal line = true) :
    check_errors worker_id error_count line = (error_count, [(worker_id, true)]) := by
  simp [check_errors, h]

/-- C1 witness: the fatal line with a nonzero counter. -/
theorem c1_witness :
    matchesFatal "Chrome attempt 3/3 failed" = true
    ∧ check_errors "chrome_1" 2 "Chrome attempt 3/3 failed" = (2, [("chrome_1", true)]) :=
  ⟨by decide, c1_fatal_line_single_restart "chrome_1" 2 _ (by decide)⟩

/-! ## Claim C2 -/

/-- C2: starting from `error_count = 0`, three lines that each match a
RECOVERABLE pattern and no FATAL pattern, with no successful start in
between, make `_check_errors` issue exactly one restart request (on the
third line, when the counter reaches `MAX_ERRORS = 3`); two such lines
issue none. -/
theorem c2_threshold_restart (worker_id l1 l2 l3 : String)
    (he1 : matchesError l1 = true) (hf1 : matchesFatal l1 = false)
    (he2 : matchesError l2 = true) (hf2 : matchesFatal l2 = false)
    (he3 : matchesError l3 = true) (hf3 : matchesFatal l3 = false) :
    feedLines worker_id 0 [l1, l2, l3] = (3, [(worker_id, true)])
    ∧ feedLines worker_id 0 [l1, l2] = (2, []) := by
  constructor <;>
    simp [feedLines, check_errors, he1, hf1, he2, hf2, he3, hf3, MAX_ERRORS]

/-- C2 witness: three distinct recoverable-but-not-fatal lines. -/
theorem c2_witness :
    (matchesError "✗ Chrome error A" = true ∧ matchesFatal "✗ Chrome error A" = false)
    ∧ feedLines "chrome_2" 0
        ["✗ Chrome error A", "✗ Chrome error B", "✗ Chrome error C"] =
        (3, [("chrome_2", true)])
    ∧ feedLines "chrome_2" 0 ["✗ Chrome error A", "✗ Chrome error B"] = (2, []) := by
  refine ⟨⟨by decide, by decide⟩, ?_⟩
  exact c2_threshold_restart "chrome_2" _ _ _ (by decide) (by decide) (by decide)
    (by decide) (by decide) (by decide)

/-! ## Claim C3 -/

/-- C3: on a registered worker, `restart_worker` performs, in order, the
stop of the slot, the system-wide Chrome kill exactly when
`kill_chrome` is set and the slot is a Chrome (PARALLEL) worker, the
fixed `RESTART_DELAY = 5` sleep, and the start of the slot; and it
increments the slot's `restart_count` by exactly one, for every
environment — in particular also when the final `start_worker` fails. -/
theorem c3_restart_sequence (env : Env) (st : MState) (wid : String) (w : WorkerInfo)
    (ks : Bool) (h : lookupW st.workers wid = some w) :
    (restart_worker env st wid ks).2.2 =
      [Event.stopEv wid]
        ++ (if ks && (w.worker_type == "chrome") then [Event.killAllEv] else [])
        ++ [Event.sleepEv RESTART_DELAY] ++ [Event.startEv wid]
    ∧ ∃ w2, lookupW (restart_worker env st wid ks).1.workers wid = some w2
        ∧ w2.restart_count = w.restart_count + 1 := by
  refine ⟨?_, restart_worker_count env st wid w ks h⟩
  rw [restart_worker_eq env st wid w ks h]

/-- C3 witness: restarting `chrome_1` of the sample pool with sibling
kill; the restart count goes from 0 to 1, and the `start_worker` after
the delay succeeds. -/
theorem c3_witness :
    lookupW stTest.workers "chrome_1" = some (mkChromeInfo 1)
    ∧ (restart_worker envTest stTest "chrome_1" true).2.2 =
        [Event.stopEv "chrome_1", Event.killAllEv, Event.sleepEv RESTART_DELAY,
          Event.startEv "chrome_1"]
    ∧ ∃ w2, lookupW (restart_worker envTest stTest "chrome_1" true).1.workers "chrome_1" = some w2
        ∧ w2.restart_count = (mkChromeInfo 1).restart_count + 1 := by
  have h := c3_restart_sequence envTest stTest "chrome_1" (mkChromeInfo 1) true (by decide)
  exact ⟨by decide, by simpa using h.1, h.2⟩

/-! ## Claim C4 (corrected) -/

/-- C4 counterexample: the claim "start() fails exactly when the
worker's launch script does not exist" is false — with the launch
script present but the OS-level spawn failing (`subprocess.Popen`
raising, lines 327-330 of the source), `start_worker` still returns
failure. -/
theorem c4_counterexample :
    lookupW stTest.workers "chrome_1" = some (mkChromeInfo 1)
    ∧ isLive envNoSpawn (mkChromeInfo 1) = false
    ∧ envNoSpawn.scriptExists (get_worker_script (mkChromeInfo 1)) = true
    ∧ (start_worker envNoSpawn stTest "chrome_1").2 = false :=
  ⟨by decide, by decide, by decide, by decide⟩

/-- C4 amended: for a registered slot whose process is not live,
`start_worker` fails if and only if the launch script does not exist or
the OS-level spawn fails; on either failure the slot status becomes
ERROR, and on success the status becomes IDLE (the specification's
RUNNING), the error counter resets to 0 and the start time is
recorded. -/
theorem c4_start_spec_amended (env : Env) (st : MState) (wid : String) (w : WorkerInfo)
    (h : lookupW st.workers wid = some w) (hl : isLive env w = false) :
    ((start_worker env st wid).2 = false ↔
      (env.scriptExists (get_worker_script w) = false ∨ env.spawnOk = false))
    ∧ (env.scriptExists (get_worker_script w) = false →
        lookupW (start_worker env st wid).1.workers wid = some { w with status := .ERROR })
    ∧ (env.scriptExists (get_worker_script w) = true → env.spawnOk = false →
        lookupW (start_worker env st wid).1.workers wid = some { w with status := .ERROR })
    ∧ (env.scriptExists (get_worker_script w) = true → env.spawnOk = true →
        (start_worker env st wid).2 = true
        ∧ lookupW (start_worker env st wid).1.workers wid =
            some { w with process := some st.nextPid, status := .IDLE, start_time := some env.now, error_count := 0 }) := by
  obtain ⟨c1, c2, c3, c4⟩ := start_worker_cases env st wid w h
  by_cases hs : env.scriptExists (get_worker_script w)
  · by_cases hsp : env.spawnOk
    · rw [c3 hl hs hsp]
      exact ⟨by simp [hs, hsp], by simp [hs], by simp [hsp],
        fun _ _ => ⟨rfl, lookupW_setW_self _ _ _⟩⟩
    · rw [c4 hl hs (by simpa using hsp)]
      exact ⟨by simp [hsp], by simp [hs], fun _ _ => lookupW_setW_self _ _ _,
        by simp [hsp]⟩
  · rw [c2 hl (by simpa using hs)]
    exact ⟨by simp [hs], fun _ => lookupW_setW_self _ _ _, by simp [hs], by simp [hs]⟩

/-- C4 witness: the amended statement instantiated at the sample pool
(worker `chrome_2`, all-good environment). -/
theorem c4_witness :
    lookupW stTest.workers "chrome_2" = some (mkChromeInfo 2)
    ∧ isLive envTest (mkChromeInfo 2) = false
    ∧ ((start_worker envTest stTest "chrome_2").2 = false ↔
        (envTest.scriptExists (get_worker_script (mkChromeInfo 2)) = false
          ∨ envTest.spawnOk = false)) := by
  have h := c4_start_spec_amended envTest stTest "chrome_2" (mkChromeInfo 2)
    (by decide) (by decide)
  exact ⟨by decide, by decide, h.1⟩

/-! ## Claim C5 -/

/-- C5: starting a slot whose process is live returns success and
changes nothing — in particular no new process is spawned and the
process handle is not replaced; stopping a slot that is already STOPPED
with no process returns success and leaves it STOPPED. -/
theorem c5_idempotent_start_stop (env : Env) (st : MState) (wid : String) (w : WorkerInfo)
    (h : lookupW st.workers wid = some w) :
    (isLive env w = true → start_worker env st wid = (st, true))
    ∧ (w.process = none → w.status = .STOPPED →
        (stop_worker st wid).2 = true
        ∧ ∃ w2, lookupW (stop_worker st wid).1.workers wid = some w2
            ∧ w2.status = .STOPPED ∧ w2.process = none) := by
  refine ⟨(start_worker_cases env st wid w h).1, fun hp hs => ?_⟩
  rw [stop_worker_eq st wid w h]
  exact ⟨rfl, _, lookupW_setW_self _ _ _, rfl, rfl⟩

/-- C5 witness: a pool whose `chrome_1` is RUNNING with a live process
(start is a no-op) and whose `chrome_2` is STOPPED with no process
(stop keeps it STOPPED). -/
theorem c5_witness :
    (isLive { envTest with alive := fun _ => true } { mkChromeInfo 1 with process := some 0, status := .IDLE } = true
      ∧ start_worker { envTest with alive := fun _ => true }
          { stTest with workers := setW stTest.workers "chrome_1" { mkChromeInfo 1 with process := some 0, status := .IDLE } }
          "chrome_1" =
        ({ stTest with workers := setW stTest.workers "chrome_1" { mkChromeInfo 1 with process := some 0, status := .IDLE } }, true))
    ∧ ((stop_worker stTest "chrome_2").2 = true
      ∧ ∃ w2, lookupW (stop_worker stTest "chrome_2").1.workers "chrome_2" = some w2
          ∧ w2.status = .STOPPED ∧ w2.process = none) := by
  have h := c5_idempotent_start_stop { envTest with alive := fun _ => true }
    { stTest with workers := setW stTest.workers "chrome_1" { mkChromeInfo 1 with process := some 0, status := .IDLE } }
    "chrome_1" { mkChromeInfo 1 with process := some 0, status := .IDLE }
    (lookupW_setW_self _ _ _)
  have h2 := c5_idempotent_start_stop envTest stTest "chrome_2" (mkChromeInfo 2) (by decide)
  exact ⟨⟨by decide, h.1 (by decide)⟩, h2.2 (by decide) (by decide)⟩

/-! ## Claim C6 -/

/-- C6: when the monitor sees EOF and the child process has exited, it
marks the slot STOPPED first, and then triggers exactly one restart of
that slot after the fixed `RESTART_DELAY` if and only if the stop flag
is not set; on any state produced by `stop_all` (shutdown) the monitor
never initiates a restart. -/
theorem c6_monitor_eof_restart (env : Env) (st : MState) (wid : String) (w : WorkerInfo)
    (pid : Nat) (h : lookupW st.workers wid = some w) (hp : w.process = some pid)
    (hd : env.alive pid = false) :
    countStarts (monitor_on_eof env st wid).2 = (if st.stop_flag then 0 else 1)
    ∧ (monitor_on_eof env st wid).2.head? = some (Event.markStoppedEv wid)
    ∧ (st.stop_flag = true →
        monitor_on_eof env st wid =
          ({ st with workers := setW st.workers wid { w with status := .STOPPED } },
            [Event.markStoppedEv wid]))
    ∧ (st.stop_flag = false →
        (monitor_on_eof env st wid).2 =
          [Event.markStoppedEv wid, Event.sleepEv RESTART_DELAY]
            ++ (restart_worker env { st with workers := setW st.workers wid { w with status := .STOPPED } } wid).2.2)
    ∧ (∀ st2 : MState, ∀ wid2 : String,
        countStarts (monitor_on_eof env (stop_all st2) wid2).2 = 0) := by
  have hex : processExited env w = true := by simp [processExited, hp, hd]
  have hstopped : lookupW (setW st.workers wid { w with status := .STOPPED }) wid =
      some { w with status := .STOPPED } := lookupW_setW_self _ _ _
  have hcount1 : countStarts (restart_worker env { st with workers := setW st.workers wid { w with status := .STOPPED } } wid).2.2 = 1 :=
    restart_worker_countStarts env _ wid _ true hstopped
  refine ⟨?_, ?_, ?_, ?_, ?_⟩
  · cases hflag : st.stop_flag
    · simp only [monitor_on_eof, h, hex, hflag, Bool.not_false, if_true,
        Bool.false_eq_true, if_false, countStarts_append]
      have h0 : countStarts [Event.markStoppedEv wid, Event.sleepEv RESTART_DELAY] = 0 := by
        simp [countStarts]
      rw [h0, Nat.zero_add]
      exact restart_worker_countStarts env _ wid _ true (lookupW_setW_self _ _ _)
    · simp [monitor_on_eof, h, hex, hflag, countStarts]
  · cases hflag : st.stop_flag <;> simp [monitor_on_eof, h, hex, hflag]
  · intro hflag
    simp [monitor_on_eof, h, hex, hflag]
  · intro hflag
    simp [monitor_on_eof, h, hex, hflag]
  · intro st2 wid2
    cases h2 : lookupW (stop_all st2).workers wid2 with
    | none => simp [monitor_on_eof, h2, countStarts]
    | some w2 =>
      cases hex2 : processExited env w2 with
      | false => simp [monitor_on_eof, h2, hex2, countStarts]
      | true => simp [monitor_on_eof, h2, hex2, stop_all_flag, countStarts]

/-- A running `chrome_1` entry with process handle 0. -/
def wLive : WorkerInfo := { mkChromeInfo 1 with process := some 0, status := .IDLE }

/-- The sample pool with `chrome_1` running under process handle 0. -/
def stLiveTest : MState := { stTest with workers := setW stTest.workers "chrome_1" wLive }

/-- C6 witness: the monitor of `chrome_1` with a dead process in a
non-shutdown sample pool triggers exactly one restart. -/
theorem c6_witness :
    lookupW stLiveTest.workers "chrome_1" = some wLive
    ∧ wLive.process = some 0
    ∧ envTest.alive 0 = false
    ∧ stLiveTest.stop_flag = false
    ∧ countStarts (monitor_on_eof envTest stLiveTest "chrome_1").2 = 1 := by
  have h := c6_monitor_eof_restart envTest stLiveTest "chrome_1" wLive 0
    (lookupW_setW_self _ _ _) rfl rfl
  refine ⟨lookupW_setW_self _ _ _, rfl, rfl, rfl, ?_⟩
  simpa using h.1

/-! ## Claim C9 (modelled from the specification, section 4.4) -/

/-- C9: `complete(task, success=true)` marks the task COMPLETED and,
when further stages remain, enqueues a PENDING task with zero retries
for the next stage of the same project — completing a DOCUMENT
(`excel`) task enqueues a RENDER_IMAGE (`image`) task, completing a
RENDER_IMAGE task enqueues a RENDER_VIDEO (`video`) task, and
completing a RENDER_VIDEO task enqueues nothing; `complete(task,
success=false)` marks the task FAILED, increments `retry_count`, and
re-enqueues the same task as PENDING. -/
theorem c9_complete_spec (t : Task) :
    ((complete t false).marked = .FAILED
      ∧ (complete t false).final.status = .PENDING
      ∧ (complete t false).final.retry_count = t.retry_count + 1
      ∧ (complete t false).final.project_code = t.project_code
      ∧ (complete t false).final.task_type = t.task_type
      ∧ (complete t false).enqueued = none)
    ∧ ((complete t true).marked = .COMPLETED
      ∧ (complete t true).final.status = .COMPLETED)
    ∧ (complete { t with task_type := .EXCEL } true).enqueued =
        some { project_code := t.project_code, task_type := .IMAGE }
    ∧ (complete { t with task_type := .IMAGE } true).enqueued =
        some { project_code := t.project_code, task_type := .VIDEO }
    ∧ (complete { t with task_type := .VIDEO } true).enqueued = none
    ∧ (Option.all (fun u => u.status == TaskStatus.PENDING && u.retry_count == 0)
        (complete t true).enqueued) = true := by
  refine ⟨⟨rfl, rfl, rfl, rfl, rfl, rfl⟩, ⟨rfl, rfl⟩, rfl, rfl, rfl, ?_⟩
  cases ht : t.task_type <;> simp [complete, nextStage, ht]

/-! ## Claim C10 -/

/-- C10: for a worker id not present in the registry, `start_worker`,
`stop_worker` and `restart_worker` each return failure and leave the
whole manager state — registry and every slot — unchanged. -/
theorem c10_unknown_worker (env : Env) (st : MState) (wid : String) (ks : Bool)
    (h : lookupW st.workers wid = none) :
    start_worker env st wid = (st, false)
    ∧ stop_worker st wid = (st, false)
    ∧ restart_worker env st wid ks = (st, false, []) := by
  refine ⟨?_, ?_, ?_⟩ <;> simp [start_worker, stop_worker, restart_worker, h]

/-- C10 witness: the unknown id `chrome_7` on the sample pool. -/
theorem c10_witness :
    lookupW stTest.workers "chrome_7" = none
    ∧ start_worker envTest stTest "chrome_7" = (stTest, false)
    ∧ stop_worker stTest "chrome_7" = (stTest, false)
    ∧ restart_worker envTest stTest "chrome_7" true = (stTest, false, []) := by
  have h := c10_unknown_worker envTest stTest "chrome_7" true (by decide)
  exact ⟨by decide, h.1, h.2.1, h.2.2⟩

/-! ## Claim C7 (corrected): the two pattern lists are not disjoint

The FATAL list is a refinement of matches of the RECOVERABLE list:
`Chrome attempt 3/3 failed` is an instance of the `Chrome attempt
\\d+/\\d+ failed` rule, and `✗ Không restart được Chrome` appears
verbatim in both lists. -/

/-- Token subsumption: every character matched by the left token is
matched by the right token.  `litDig` embeds a literal digit into
`\\d+` (which can always consume exactly one digit). -/
inductive TSub : RTok → RTok → Prop where
  | refl (t : RTok) : TSub t t
  | litDig (c : Char) (h : isDig c = true) : TSub (.lit c) .digits

/-- A character that case-folds to a digit code is that digit. -/
theorem lcode_digit (x c : Char) (hc : isDig c = true)
    (h : (lcode x == lcode c) = true) : isDig x = true := by
  simp only [isDig, decide_eq_true_eq] at hc ⊢
  simp only [beq_iff_eq, lcode] at h
  by_cases hx : 65 ≤ x.toNat ∧ x.toNat ≤ 90 <;>
    by_cases hcc : 65 ≤ c.toNat ∧ c.toNat ≤ 90 <;>
      simp [hx, hcc] at h <;> omega

/-- Pointwise-subsumed token lists match at least as much input, at any
common fuel. -/
theorem matchToksF_sub : ∀ (f : Nat) (ts1 ts2 : List RTok) (xs : List Char),
    List.Forall₂ TSub ts1 ts2 → matchToksF f ts1 xs = true → matchToksF f ts2 xs = true := by
  intro f
  induction f with
  | zero => intro ts1 ts2 xs _ hm; simp [matchToksF] at hm
  | succ f ih =>
    intro ts1 ts2 xs hsub hm
    cases hsub with
    | nil => simp [matchToksF]
    | cons hhead htail =>
      rename_i a b as bs
      cases hhead with
      | refl _ =>
        cases a with
        | lit c =>
          cases xs with
          | nil => simp [matchToksF] at hm
          | cons x xs =>
            simp only [matchToksF, Bool.and_eq_true] at hm ⊢
            exact ⟨hm.1, ih _ _ _ htail hm.2⟩
        | digits =>
          cases xs with
          | nil => simp [matchToksF] at hm
          | cons x xs =>
            simp only [matchToksF, Bool.and_eq_true, Bool.or_eq_true] at hm ⊢
            refine ⟨hm.1, ?_⟩
            rcases hm.2 with h2 | h2
            · exact Or.inl (ih _ _ _ htail h2)
            · exact Or.inr (ih _ _ _ (List.Forall₂.cons (TSub.refl .digits) htail) h2)
        | anystar =>
          cases xs with
          | nil =>
            simp only [matchToksF] at hm ⊢
            exact ih _ _ _ htail hm
          | cons x xs =>
            simp only [matchToksF, Bool.or_eq_true] at hm ⊢
            rcases hm with h2 | h2
            · exact Or.inl (ih _ _ _ htail h2)
            · exact Or.inr (ih _ _ _ (List.Forall₂.cons (TSub.refl .anystar) htail) h2)
      | litDig c hdig =>
        cases xs with
        | nil => simp [matchToksF] at hm
        | cons x xs =>
          simp only [matchToksF, Bool.and_eq_true, Bool.or_eq_true] at hm ⊢
          exact ⟨lcode_digit x c hdig hm.1, Or.inl (ih _ _ _ htail hm.2)⟩

/-- Subsumption for the fuelled wrapper. -/
theorem matchToks_sub (ts1 ts2 : List RTok) (xs : List Char)
    (hsub : List.Forall₂ TSub ts1 ts2) (hm : matchToks ts1 xs = true) :
    matchToks ts2 xs = true := by
  unfold matchToks at hm ⊢
  rw [← hsub.length_eq]
  exact matchToksF_sub _ _ _ _ hsub hm

/-- Subsumption for `re.search`. -/
theorem searchToks_sub (ts1 ts2 : List RTok) (xs : List Char)
    (hsub : List.Forall₂ TSub ts1 ts2) (hm : searchToks ts1 xs = true) :
    searchToks ts2 xs = true := by
  induction xs with
  | nil => exact matchToks_sub _ _ _ hsub hm
  | cons x xs ih =>
    simp only [searchToks, Bool.or_eq_true] at hm ⊢
    rcases hm with h | h
    · exact Or.inl (matchToks_sub _ _ _ hsub h)
    · exact Or.inr (ih h)

/-- `Forall₂ TSub` is reflexive and compatible with append. -/
theorem forall2_tsub_refl (l : List RTok) : List.Forall₂ TSub l l := by
  induction l with
  | nil => exact List.Forall₂.nil
  | cons a l ih => exact List.Forall₂.cons (TSub.refl a) ih

theorem forall2_tsub_append {a b c d : List RTok} (h1 : List.Forall₂ TSub a b)
    (h2 : List.Forall₂ TSub c d) : List.Forall₂ TSub (a ++ c) (b ++ d) := by
  induction h1 with
  | nil => exact h2
  | cons hh _ ih => exact List.Forall₂.cons hh ih

/-- The first FATAL pattern is pointwise subsumed by the first
RECOVERABLE pattern. -/
theorem fatal0_sub_error0 :
    List.Forall₂ TSub (litToks "Chrome attempt 3/3 failed")
      (litToks "Chrome attempt " ++ [.digits, .lit '/', .digits] ++ litToks " failed") := by
  have hsplit : litToks "Chrome attempt 3/3 failed" =
      litToks "Chrome attempt " ++ [.lit '3', .lit '/', .lit '3'] ++ litToks " failed" := by
    decide
  rw [hsplit]
  refine forall2_tsub_append (forall2_tsub_append (forall2_tsub_refl _) ?_) (forall2_tsub_refl _)
  exact List.Forall₂.cons (TSub.litDig '3' (by decide))
    (List.Forall₂.cons (TSub.refl _) (List.Forall₂.cons (TSub.litDig '3' (by decide))
      List.Forall₂.nil))

/-- C7 counterexample: the RECOVERABLE and FATAL lists are not
disjoint as matchers — the line `✗ Không restart được Chrome` matches a
pattern of each list. -/
theorem c7_counterexample :
    matchesFatal "✗ Không restart được Chrome" = true
    ∧ matchesError "✗ Không restart được Chrome" = true :=
  ⟨by decide, by decide⟩

/-- C7 amended: far from disjoint, the FATAL matchers are a refinement
of the RECOVERABLE matchers — every line matching a FATAL pattern also
matches some RECOVERABLE pattern; the monitor checks the FATAL list
first and returns, so such a line still receives only the fatal
treatment (counter untouched, one immediate restart request). -/
theorem c7_fatal_subset_recoverable (line : String) (h : matchesFatal line = true) :
    matchesError line = true
    ∧ ∀ worker_id error_count,
        check_errors worker_id error_count line = (error_count, [(worker_id, true)]) := by
  refine ⟨?_, fun worker_id error_count => by simp [check_errors, h]⟩
  simp only [matchesFatal, FATAL_PATTERNS, List.any_cons, List.any_nil,
    Bool.or_eq_true, Bool.or_eq_false_iff] at h
  simp only [matchesError, ERROR_PATTERNS, List.any_cons, List.any_nil, Bool.or_eq_true]
  rcases h with h | h | h
  · exact Or.inl (searchToks_sub _ _ _ fatal0_sub_error0 h)
  · exact Or.inr (Or.inr (Or.inl h))
  · cases h

/-- C7 witness: the fatal line `Chrome attempt 3/3 failed` also counts
as recoverable, and gets only the fatal treatment. -/
theorem c7_witness :
    matchesFatal "Chrome attempt 3/3 failed" = true
    ∧ matchesError "Chrome attempt 3/3 failed" = true
    ∧ check_errors "excel" 1 "Chrome attempt 3/3 failed" = (1, [("excel", true)]) := by
  have h := c7_fatal_subset_recoverable "Chrome attempt 3/3 failed" (by decide)
  exact ⟨by decide, h.1, h.2 "excel" 1⟩

/-! ## Injectivity of the Chrome worker ids -/

theorem digitsRevF_fuel : ∀ (f g n : Nat), n ≤ f → n ≤ g →
    digitsRevF f n = digitsRevF g n := by
  intro f
  induction f with
  | zero =>
    intro g n hf _
    interval_cases n
    cases g <;> simp [digitsRevF]
  | succ f ih =>
    intro g n hf hg
    cases n with
    | zero => cases g <;> simp [digitsRevF]
    | succ m =>
      cases g with
      | zero => omega
      | succ g =>
        have hdiv : (m + 1) / 10 < m + 1 := Nat.div_lt_self (Nat.succ_pos m) (by omega)
        simp only [digitsRevF]
        rw [ih g ((m + 1) / 10) (by omega) (by omega)]

theorem digitsRev_succ (m : Nat) :
    digitsRev (m + 1) = ((m + 1) % 10) :: digitsRev ((m + 1) / 10) := by
  have hdiv : (m + 1) / 10 < m + 1 := Nat.div_lt_self (Nat.succ_pos m) (by omega)
  unfold digitsRev
  simp only [digitsRevF]
  rw [digitsRevF_fuel m ((m + 1) / 10) ((m + 1) / 10) (by omega) (by omega)]

theorem digitsRev_eq_nil_iff (n : Nat) : digitsRev n = [] ↔ n = 0 := by
  cases n with
  | zero => simp [digitsRev, digitsRevF]
  | succ m => simp [digitsRev_succ]

theorem digitsRev_inj : ∀ a b : Nat, digitsRev a = digitsRev b → a = b := by
  intro a
  induction a using Nat.strong_induction_on with
  | _ a ih =>
    intro b h
    cases a with
    | zero =>
      cases b with
      | zero => rfl
      | succ m => rw [digitsRev_succ] at h; simp [digitsRev, digitsRevF] at h
    | succ m =>
      cases b with
      | zero => rw [digitsRev_succ] at h; simp [digitsRev, digitsRevF] at h
      | succ k =>
        rw [digitsRev_succ, digitsRev_succ] at h
        simp only [List.cons.injEq] at h
        have hdiv : (m + 1) / 10 < m + 1 := Nat.div_lt_self (Nat.succ_pos m) (by omega)
        have hq := ih ((m + 1) / 10) hdiv ((k + 1) / 10) h.2
        have h1 := Nat.div_add_mod (m + 1) 10
        have h2 := Nat.div_add_mod (k + 1) 10
        omega

theorem digitsRev_lt (n : Nat) : ∀ d ∈ digitsRev n, d < 10 := by
  induction n using Nat.strong_induction_on with
  | _ n ih =>
    cases n with
    | zero => simp [digitsRev, digitsRevF]
    | succ m =>
      rw [digitsRev_succ]
      intro d hd
      rcases List.mem_cons.1 hd with h | h
      · omega
      · exact ih ((m + 1) / 10) (Nat.div_lt_self (Nat.succ_pos m) (by omega)) d h

theorem digChar_inj_lt : ∀ a < 10, ∀ b < 10, digChar a = digChar b → a = b := by
  decide

theorem map_digChar_inj : ∀ l1 l2 : List Nat, (∀ d ∈ l1, d < 10) → (∀ d ∈ l2, d < 10) →
    l1.map digChar = l2.map digChar → l1 = l2 := by
  intro l1
  induction l1 with
  | nil => intro l2 _ _ h; cases l2 <;> simp_all
  | cons a l ih =>
    intro l2 h1 h2 h
    cases l2 with
    | nil => simp at h
    | cons b l2 =>
      simp only [List.map_cons, List.cons.injEq] at h
      have ha := digChar_inj_lt a (h1 a (by simp)) b (h2 b (by simp)) h.1
      have := ih l2 (fun d hd => h1 d (by simp [hd])) (fun d hd => h2 d (by simp [hd])) h.2
      simp [ha, this]

theorem natStr_inj : ∀ a b : Nat, natStr a = natStr b → a = b := by
  have key : ∀ m : Nat, String.mk ((digitsRev (m + 1)).reverse.map digChar) ≠ "0" := by
    intro m h
    have hdata : (digitsRev (m + 1)).reverse.map digChar = ['0'] := by
      exact congrArg String.data h
    have hrev : (digitsRev (m + 1)).reverse = [0] := by
      apply map_digChar_inj _ [0]
      · intro d hd
        exact digitsRev_lt (m + 1) d (List.mem_reverse.1 hd)
      · simp
      · simpa [digChar] using hdata
    have hdr : digitsRev (m + 1) = [0] := by
      have := congrArg List.reverse hrev
      simpa using this
    rw [digitsRev_succ] at hdr
    simp only [List.cons.injEq] at hdr
    have h1 := Nat.div_add_mod (m + 1) 10
    have h2 := (digitsRev_eq_nil_iff ((m + 1) / 10)).1 hdr.2
    omega
  intro a b h
  cases a with
  | zero =>
    cases b with
    | zero => rfl
    | succ m => exact absurd h.symm (by simpa [natStr] using key m)
  | succ m =>
    cases b with
    | zero => exact absurd h (by simpa [natStr] using key m)
    | succ k =>
      simp only [natStr, Nat.succ_ne_zero, if_false] at h
      have hdata : (digitsRev (m + 1)).reverse.map digChar =
          (digitsRev (k + 1)).reverse.map digChar := by
        injection h
      have hrev := map_digChar_inj _ _
        (fun d hd => digitsRev_lt (m + 1) d (List.mem_reverse.1 hd))
        (fun d hd => digitsRev_lt (k + 1) d (List.mem_reverse.1 hd)) hdata
      have : digitsRev (m + 1) = digitsRev (k + 1) := by
        have := congrArg List.reverse hrev
        simpa using this
      exact digitsRev_inj _ _ this

theorem string_append_cancel_left (a s t : String) (h : a ++ s = a ++ t) : s = t := by
  have hd : a.data ++ s.data = a.data ++ t.data := congrArg String.data h
  have hst : s.data = t.data := List.append_cancel_left hd
  cases s
  cases t
  exact congrArg String.mk hst

theorem chromeId_inj (i j : Nat) (h : chromeId i = chromeId j) : i = j :=
  natStr_inj i j (string_append_cancel_left "chrome_" _ _ h)

/-! ## The scaling folds -/

/-- Chrome ids of distinct ordinals are distinct. -/
theorem chromeId_ne (i j : Nat) (h : i ≠ j) : chromeId i ≠ chromeId j :=
  fun he => h (chromeId_inj i j he)

theorem not_mem_map_chromeId (i : Nat) (L : List Nat) (h : i ∉ L) :
    chromeId i ∉ L.map chromeId := by
  intro hm
  obtain ⟨j, hj, he⟩ := List.mem_map.1 hm
  exact h ((chromeId_inj j i he) ▸ hj)

/-- Everything the scale-up fold does: it appends exactly the requested
fresh ids to the registry, leaves every other key alone, leaves each new
slot with zeroed counters, and records one start call per new slot. -/
theorem scaleUp_fold (env : Env) : ∀ (L : List Nat) (st : MState) (evs : List Event),
    (∀ j ∈ L, lookupW st.workers (chromeId j) = none) → L.Nodup →
    keysW (L.foldl (addChromeWorker env) (st, evs)).1.workers
      = keysW st.workers ++ L.map chromeId
    ∧ (∀ k, k ∉ L.map chromeId →
        lookupW (L.foldl (addChromeWorker env) (st, evs)).1.workers k = lookupW st.workers k)
    ∧ (∀ j ∈ L, ∃ w,
        lookupW (L.foldl (addChromeWorker env) (st, evs)).1.workers (chromeId j) = some w
        ∧ w.restart_count = 0 ∧ w.error_count = 0 ∧ w.worker_type = "chrome"
        ∧ w.worker_num = j)
    ∧ (L.foldl (addChromeWorker env) (st, evs)).2
        = evs ++ L.map (fun i => Event.startEv (chromeId i))
    ∧ (L.foldl (addChromeWorker env) (st, evs)).1.stop_flag = st.stop_flag
    ∧ (L.foldl (addChromeWorker env) (st, evs)).1.num_chrome_workers
        = st.num_chrome_workers := by
  intro L
  induction L with
  | nil => intro st evs _ _; exact ⟨by simp [keysW], fun k _ => rfl, by simp, by simp, rfl, rfl⟩
  | cons i L ih =>
    intro st evs hfresh hnodup
    have hstep : addChromeWorker env (st, evs) i =
        ((start_worker env { st with workers := setW st.workers (chromeId i) (mkChromeInfo i) }
            (chromeId i)).1, evs ++ [Event.startEv (chromeId i)]) := rfl
    have hfresh_i : lookupW st.workers (chromeId i) = none := hfresh i (by simp)
    have hnotmem : i ∉ L := (List.nodup_cons.1 hnodup).1
    have hnodupL : L.Nodup := (List.nodup_cons.1 hnodup).2
    set cid := chromeId i with hcid
    set st1 : MState :=
      { st with workers := setW st.workers cid (mkChromeInfo i) } with hst1
    set stA : MState := (start_worker env st1 cid).1 with hstA
    have hkeys1 : keysW st1.workers = keysW st.workers ++ [cid] := by
      simp only [hst1]
      rw [setW_eq_append _ _ _ hfresh_i]
      simp [keysW]
    have hlook1 : lookupW st1.workers cid = some (mkChromeInfo i) := lookupW_setW_self _ _ _
    obtain ⟨wA, hwA, hArc, hAty, hAnum, hAerr⟩ := start_worker_entry env st1 cid _ hlook1
    have hkeysA : keysW stA.workers = keysW st.workers ++ [cid] := by
      rw [hstA, start_worker_keysW, hkeys1]
    have hlookA_ne : ∀ k, k ≠ cid → lookupW stA.workers k = lookupW st.workers k := by
      intro k hk
      rw [hstA, start_worker_lookup_ne env st1 cid k hk]
      simp only [hst1]
      exact lookupW_setW_ne _ _ _ _ hk
    have hfreshA : ∀ j ∈ L, lookupW stA.workers (chromeId j) = none := by
      intro j hj
      have hne : chromeId j ≠ cid := chromeId_ne j i (fun he => hnotmem (he ▸ hj))
      rw [hlookA_ne _ hne]
      exact hfresh j (by simp [hj])
    obtain ⟨K, P, Q, E, F, N⟩ := ih stA (evs ++ [Event.startEv cid]) hfreshA hnodupL
    have hcid_not : cid ∉ L.map chromeId := not_mem_map_chromeId i L hnotmem
    refine ⟨?_, ?_, ?_, ?_, ?_, ?_⟩
    · rw [List.foldl_cons, hstep, K, hkeysA]
      simp [List.append_assoc]
    · intro k hk
      simp only [List.map_cons, List.mem_cons, not_or] at hk
      rw [List.foldl_cons, hstep, P k hk.2, hlookA_ne k hk.1]
    · intro j hj
      rcases List.mem_cons.1 hj with rfl | hj2
      · refine ⟨wA, ?_, by simp [hArc, mkChromeInfo], by simpa [mkChromeInfo] using hAerr rfl,
          by simp [hAty, mkChromeInfo], by simp [hAnum, mkChromeInfo]⟩
        rw [List.foldl_cons, hstep, P cid hcid_not]
        exact hwA
      · obtain ⟨w, hw, h1, h2, h3, h4⟩ := Q j hj2
        refine ⟨w, ?_, h1, h2, h3, h4⟩
        rw [List.foldl_cons, hstep]
        exact hw
    · rw [List.foldl_cons, hstep, E]
      simp
    · rw [List.foldl_cons, hstep, F, hstA, (start_worker_scalars env st1 cid).2]
    · rw [List.foldl_cons, hstep, N, hstA, (start_worker_scalars env st1 cid).1]

/-- Everything the scale-down fold does: it removes exactly the
requested ids from the registry, leaves every other key alone, and
records one stop call per removed slot. -/
theorem scaleDown_fold : ∀ (L : List Nat) (st : MState) (evs : List Event),
    (keysW st.workers).Nodup → L.Nodup →
    (∀ k, k ∉ L.map chromeId →
        lookupW (L.foldl removeChromeWorker (st, evs)).1.workers k = lookupW st.workers k)
    ∧ (∀ j ∈ L, lookupW (L.foldl removeChromeWorker (st, evs)).1.workers (chromeId j) = none)
    ∧ (L.foldl removeChromeWorker (st, evs)).2
        = evs ++ L.map (fun i => Event.stopEv (chromeId i))
    ∧ ((L.foldl removeChromeWorker (st, evs)).1.workers |> keysW).Nodup
    ∧ (L.foldl removeChromeWorker (st, evs)).1.stop_flag = st.stop_flag
    ∧ (L.foldl removeChromeWorker (st, evs)).1.num_chrome_workers = st.num_chrome_workers := by
  intro L
  induction L with
  | nil => intro st evs hk _; exact ⟨fun k _ => rfl, by simp, by simp, hk, rfl, rfl⟩
  | cons i L ih =>
    intro st evs hkeys hnodup
    have hstep : removeChromeWorker (st, evs) i =
        ({ (stop_worker st (chromeId i)).1 with
            workers := eraseW (stop_worker st (chromeId i)).1.workers (chromeId i) },
          evs ++ [Event.stopEv (chromeId i)]) := rfl
    have hnotmem : i ∉ L := (List.nodup_cons.1 hnodup).1
    have hnodupL : L.Nodup := (List.nodup_cons.1 hnodup).2
    set cid := chromeId i with hcid
    set stS : MState := (stop_worker st cid).1 with hstS
    set stR : MState := { stS with workers := eraseW stS.workers cid } with hstR
    have hkeysS : keysW stS.workers = keysW st.workers := stop_worker_keysW st cid
    have hkeysS_nodup : (keysW stS.workers).Nodup := hkeysS ▸ hkeys
    have hkeysR_nodup : (keysW stR.workers).Nodup :=
      (keysW_eraseW_sublist stS.workers cid).nodup hkeysS_nodup
    have hlookR_ne : ∀ k, k ≠ cid → lookupW stR.workers k = lookupW st.workers k := by
      intro k hk
      simp only [hstR]
      rw [lookupW_eraseW_ne _ _ _ hk, stop_worker_lookup_ne st cid k hk]
    have hlookR_self : lookupW stR.workers cid = none :=
      lookupW_eraseW_self _ _ hkeysS_nodup
    obtain ⟨P, Q, E, K, F, N⟩ := ih stR (evs ++ [Event.stopEv cid]) hkeysR_nodup hnodupL
    have hcid_not : cid ∉ L.map chromeId := not_mem_map_chromeId i L hnotmem
    refine ⟨?_, ?_, ?_, ?_, ?_, ?_⟩
    · intro k hk
      simp only [List.map_cons, List.mem_cons, not_or] at hk
      rw [List.foldl_cons, hstep, P k hk.2, hlookR_ne k hk.1]
    · intro j hj
      rcases List.mem_cons.1 hj with rfl | hj2
      · rw [List.foldl_cons, hstep, P cid hcid_not]
        exact hlookR_self
      · rw [List.foldl_cons, hstep]
        exact Q j hj2
    · rw [List.foldl_cons, hstep, E]
      simp
    · rw [List.foldl_cons, hstep]
      exact K
    · rw [List.foldl_cons, hstep, F]
      exact (stop_worker_scalars st cid).2.1
    · rw [List.foldl_cons, hstep, N]
      exact (stop_worker_scalars st cid).1

/-! ## Claim C8 -/

/-- C8: when the registry holds no Chrome ordinal above the current
count `c` and its keys are distinct (the invariant `_init_workers` and
`scale_chrome_workers` maintain), `scale_chrome_workers env st n`
sets the count to `n` and
* for `n > c` creates and starts exactly the slots with ordinals
  `c+1..n` — their keys are appended to the registry, each new slot is
  fresh (zeroed restart and error counters), one start call is recorded
  per new ordinal and every other key is untouched;
* for `n < c` stops and removes exactly the slots with ordinals
  `n+1..c` — their lookups become `none`, one stop call is recorded per
  removed ordinal and every other key is untouched;
* for `n = c` it changes nothing.
Hence scaling 5 → 3 → 5 re-creates ordinals 4 and 5 as fresh slots. -/
theorem c8_scale_spec (env : Env) (st : MState) (n : Nat)
    (hnodup : (keysW st.workers).Nodup)
    (hfresh : ∀ j, st.num_chrome_workers < j → lookupW st.workers (chromeId j) = none) :
    (scale_chrome_workers env st n).1.num_chrome_workers = n
    ∧ (st.num_chrome_workers < n →
        keysW (scale_chrome_workers env st n).1.workers
          = keysW st.workers
            ++ (List.range' (st.num_chrome_workers + 1) (n - st.num_chrome_workers)).map chromeId
        ∧ (∀ k, k ∉ (List.range' (st.num_chrome_workers + 1)
              (n - st.num_chrome_workers)).map chromeId →
            lookupW (scale_chrome_workers env st n).1.workers k = lookupW st.workers k)
        ∧ (∀ j, st.num_chrome_workers < j → j ≤ n →
            ∃ w, lookupW (scale_chrome_workers env st n).1.workers (chromeId j) = some w
              ∧ w.restart_count = 0 ∧ w.error_count = 0 ∧ w.worker_type = "chrome"
              ∧ w.worker_num = j)
        ∧ (scale_chrome_workers env st n).2
            = (List.range' (st.num_chrome_workers + 1) (n - st.num_chrome_workers)).map
                (fun i => Event.startEv (chromeId i)))
    ∧ (n < st.num_chrome_workers →
        (∀ k, k ∉ (List.range' (n + 1) (st.num_chrome_workers - n)).map chromeId →
            lookupW (scale_chrome_workers env st n).1.workers k = lookupW st.workers k)
        ∧ (∀ j, n < j → j ≤ st.num_chrome_workers →
            lookupW (scale_chrome_workers env st n).1.workers (chromeId j) = none)
        ∧ (scale_chrome_workers env st n).2
            = (List.range' (n + 1) (st.num_chrome_workers - n)).map
                (fun i => Event.stopEv (chromeId i)))
    ∧ (n = st.num_chrome_workers →
        (scale_chrome_workers env st n).1 = { st with num_chrome_workers := n }
        ∧ (scale_chrome_workers env st n).2 = []) := by
  rcases Nat.lt_trichotomy st.num_chrome_workers n with h1 | h1 | h1
  · -- scale up
    have hs : scale_chrome_workers env st n =
        ({ ((List.range' (st.num_chrome_workers + 1) (n - st.num_chrome_workers)).foldl
              (addChromeWorker env) (st, [])).1 with num_chrome_workers := n },
          ((List.range' (st.num_chrome_workers + 1) (n - st.num_chrome_workers)).foldl
              (addChromeWorker env) (st, [])).2) := by
      simp [scale_chrome_workers, h1]
    have hmem : ∀ j, j ∈ List.range' (st.num_chrome_workers + 1) (n - st.num_chrome_workers) ↔
        st.num_chrome_workers < j ∧ j ≤ n := by
      intro j
      rw [List.mem_range'_1]
      omega
    have hfreshL : ∀ j ∈ List.range' (st.num_chrome_workers + 1) (n - st.num_chrome_workers),
        lookupW st.workers (chromeId j) = none := by
      intro j hj
      exact hfresh j ((hmem j).1 hj).1
    obtain ⟨K, P, Q, E, _, _⟩ := scaleUp_fold env
      (List.range' (st.num_chrome_workers + 1) (n - st.num_chrome_workers)) st []
      hfreshL (List.nodup_range' _ _)
    refine ⟨by rw [hs], fun _ => ⟨?_, ?_, ?_, ?_⟩, fun hc => absurd h1 (by omega),
      fun hc => absurd h1 (by omega)⟩
    · rw [hs]
      exact K
    · intro k hk
      rw [hs]
      exact P k hk
    · intro j hj1 hj2
      obtain ⟨w, hw, hrest⟩ := Q j ((hmem j).2 ⟨hj1, hj2⟩)
      refine ⟨w, ?_, hrest⟩
      rw [hs]
      exact hw
    · rw [hs]
      simpa using E
  · -- no change
    have hs : scale_chrome_workers env st n = ({ st with num_chrome_workers := n }, []) := by
      simp [scale_chrome_workers, h1]
    exact ⟨by rw [hs], fun hc => absurd hc (by omega), fun hc => absurd hc (by omega),
      fun _ => ⟨by rw [hs], by rw [hs]⟩⟩
  · -- scale down
    have hs : scale_chrome_workers env st n =
        ({ ((List.range' (n + 1) (st.num_chrome_workers - n)).foldl
              removeChromeWorker (st, [])).1 with num_chrome_workers := n },
          ((List.range' (n + 1) (st.num_chrome_workers - n)).foldl
              removeChromeWorker (st, [])).2) := by
      simp [scale_chrome_workers, h1, Nat.lt_asymm h1]
    have hmem : ∀ j, j ∈ List.range' (n + 1) (st.num_chrome_workers - n) ↔
        n < j ∧ j ≤ st.num_chrome_workers := by
      intro j
      rw [List.mem_range'_1]
      omega
    obtain ⟨P, Q, E, _, _, _⟩ := scaleDown_fold
      (List.range' (n + 1) (st.num_chrome_workers - n)) st []
      hnodup (List.nodup_range' _ _)
    refine ⟨by rw [hs], fun hc => absurd hc (by omega), fun _ => ⟨?_, ?_, ?_⟩,
      fun hc => absurd hc (by omega)⟩
    · intro k hk
      rw [hs]
      exact P k hk
    · intro j hj1 hj2
      rw [hs]
      exact Q j ((hmem j).2 ⟨hj1, hj2⟩)
    · rw [hs]
      simpa using E

/-- A five-Chrome pool whose slots 4 and 5 carry used counters. -/
def stDirty5 : MState :=
  { workers := [("excel", { worker_id := "excel", worker_type := "excel" }),
                ("chrome_1", mkChromeInfo 1),
                ("chrome_2", mkChromeInfo 2),
                ("chrome_3", mkChromeInfo 3),
                ("chrome_4", { mkChromeInfo 4 with restart_count := 7, error_count := 2, status := .IDLE, process := some 11 }),
                ("chrome_5", { mkChromeInfo 5 with restart_count := 9, error_count := 1, status := .IDLE, process := some 12 })],
    num_chrome_workers := 5 }

/-- C8 witness: the claim theorem applied to a scale-down of the dirty
five-worker pool, plus the concrete 5 → 3 → 5 round trip — the final
registry holds exactly ordinals 1..5 and the re-created slots 4 and 5
are fresh (zero counters), not the removed dirty ones. -/
theorem c8_witness :
    ((keysW stDirty5.workers).Nodup
      ∧ (∀ j, stDirty5.num_chrome_workers < j →
          lookupW stDirty5.workers (chromeId j) = none)
      ∧ (3 < stDirty5.num_chrome_workers →
          (∀ j, 3 < j → j ≤ stDirty5.num_chrome_workers →
            lookupW (scale_chrome_workers envTest stDirty5 3).1.workers (chromeId j) = none)))
    ∧ (keysW (scale_chrome_workers envTest
          (scale_chrome_workers envTest stDirty5 3).1 5).1.workers
        = ["excel", "chrome_1", "chrome_2", "chrome_3", "chrome_4", "chrome_5"]
      ∧ (∃ w, lookupW (scale_chrome_workers envTest
            (scale_chrome_workers envTest stDirty5 3).1 5).1.workers "chrome_4" = some w
          ∧ w.restart_count = 0 ∧ w.error_count = 0)
      ∧ (∃ w, lookupW (scale_chrome_workers envTest
            (scale_chrome_workers envTest stDirty5 3).1 5).1.workers "chrome_5" = some w
          ∧ w.restart_count = 0 ∧ w.error_count = 0)) := by
  have hfresh : ∀ j, stDirty5.num_chrome_workers < j →
      lookupW stDirty5.workers (chromeId j) = none := by
    intro j hj
    have h5 : (5 : Nat) < j := hj
    rw [lookupW_eq_none_iff]
    intro hmem
    have hkeys : keysW stDirty5.workers =
        ["excel", "chrome_1", "chrome_2", "chrome_3", "chrome_4", "chrome_5"] := by decide
    rw [hkeys] at hmem
    simp only [List.mem_cons, List.not_mem_nil, or_false] at hmem
    rcases hmem with he | he | he | he | he | he
    · have hc : (chromeId j).data.head? = some 'c' := rfl
      rw [he] at hc
      exact absurd hc (by decide)
    · have : j = 1 := chromeId_inj j 1 (by rw [he]; decide)
      omega
    · have : j = 2 := chromeId_inj j 2 (by rw [he]; decide)
      omega
    · have : j = 3 := chromeId_inj j 3 (by rw [he]; decide)
      omega
    · have : j = 4 := chromeId_inj j 4 (by rw [he]; decide)
      omega
    · have : j = 5 := chromeId_inj j 5 (by rw [he]; decide)
      omega
  have h := c8_scale_spec envTest stDirty5 3 (by decide) hfresh
  exact ⟨⟨by decide, hfresh, fun h3 => (h.2.2.1 h3).2.1⟩, by decide, by decide, by decide⟩

end VM

